import Mathlib

/-!
Verification of the blbldl audio-download pipeline (src/blbldl.py).

This file shallowly embeds the functions of the repository that the
specification describes and proves or refutes the specified properties.

Conventions of the embedding:
* Python dictionaries read through `.get(key, default)` become structures
  with `Option` fields together with `Option.getD`.
* Python exceptions become `Except` values; an uncaught exception is an
  `Except.error` result propagated to the caller.
* Machine-opaque library calls (HTML tree construction, regular-expression
  matching inside `parse_bv_info`, `json.loads`, the network) are modelled
  as explicit inputs of the embedded functions, one abstract outcome per
  call site, so that control flow of the repository code stays exact.
-/

/-! ## Media descriptors and the quality comparator (blbldl.py lines 138-179) -/

/-- One candidate stream, as `find_highest_quality_file_index` reads it: the
fields the function accesses through `dict.get`, each possibly absent. -/
structure MediaDescriptor where
  width? : Option Int
  height? : Option Int
  frameRate? : Option Int
  frame_rate? : Option Int
  bandwidth? : Option Int
  codecs? : Option String
  baseUrl? : Option String
deriving DecidableEq, Repr

/-- A descriptor with every field absent; also the out-of-range default for
list indexing (the loop keeps its index in range, so it is never read). -/
def emptyDescriptor : MediaDescriptor :=
  ⟨none, none, none, none, none, none, none⟩

/-- `video.get('width', 0)` (line 159). -/
def getWidth (v : MediaDescriptor) : Int := v.width?.getD 0

/-- `video.get('height', 0)` (line 160). -/
def getHeight (v : MediaDescriptor) : Int := v.height?.getD 0

/-- `video.get('frameRate', video.get('frame_rate', 0))` (line 161). -/
def getFrameRate (v : MediaDescriptor) : Int :=
  match v.frameRate? with
  | some x => x
  | none => v.frame_rate?.getD 0

/-- `video.get('bandwidth', 0)` (line 162). -/
def getBandwidth (v : MediaDescriptor) : Int := v.bandwidth?.getD 0

/-- The (width, height, frame-rate, bandwidth) tuple of a descriptor, with
missing fields read as 0, exactly as the loop body reads them. -/
def qualityKey (v : MediaDescriptor) : Int × Int × Int × Int :=
  (getWidth v, getHeight v, getFrameRate v, getBandwidth v)

/-- The update condition of the loop body (lines 170-175), transcribed
disjunct by disjunct. -/
def qualityGT (cur hi : MediaDescriptor) : Prop :=
  getWidth hi < getWidth cur ∨
  (getWidth cur = getWidth hi ∧ getHeight hi < getHeight cur) ∨
  (getWidth cur = getWidth hi ∧ getHeight cur = getHeight hi ∧
    getFrameRate hi < getFrameRate cur) ∨
  (getWidth cur = getWidth hi ∧ getHeight cur = getHeight hi ∧
    getFrameRate cur = getFrameRate hi ∧ getBandwidth hi < getBandwidth cur)

instance (cur hi : MediaDescriptor) : Decidable (qualityGT cur hi) := by
  unfold qualityGT
  infer_instance

/-- The loop of `find_highest_quality_file_index` (lines 158-176): the pairs
list is `enumerate(video_list)` and the accumulator is `highest_index`. -/
def fhqLoop (video_list : List MediaDescriptor) :
    List (Nat × MediaDescriptor) → Nat → Nat
  | [], highest_index => highest_index
  | (index, video) :: rest, highest_index =>
    let highest_video := video_list.getD highest_index emptyDescriptor
    if qualityGT video highest_video then fhqLoop video_list rest index
    else fhqLoop video_list rest highest_index

/-- `find_highest_quality_file_index` (lines 138-179): `-1` on the empty
list, otherwise the index left by the comparison loop. -/
def find_highest_quality_file_index (video_list : List MediaDescriptor) : Int :=
  if video_list.isEmpty then -1
  else Int.ofNat (fhqLoop video_list video_list.enum 0)

/-- Lexicographic less-or-equal on quality tuples in the order width, height,
frame-rate, bandwidth: the order the specification states the winner is
maximal for. -/
def keyLE (a b : Int × Int × Int × Int) : Prop :=
  a.1 < b.1 ∨
  (a.1 = b.1 ∧ (a.2.1 < b.2.1 ∨
    (a.2.1 = b.2.1 ∧ (a.2.2.1 < b.2.2.1 ∨
      (a.2.2.1 = b.2.2.1 ∧ a.2.2.2 ≤ b.2.2.2)))))

/-- Strict lexicographic order on quality tuples. -/
def keyLT (a b : Int × Int × Int × Int) : Prop := keyLE a b ∧ a ≠ b

lemma keyLE_refl (a : Int × Int × Int × Int) : keyLE a a := by
  obtain ⟨a1, a2, a3, a4⟩ := a
  simp [keyLE]

lemma keyLE_trans {a b c : Int × Int × Int × Int} :
    keyLE a b → keyLE b c → keyLE a c := by
  obtain ⟨a1, a2, a3, a4⟩ := a
  obtain ⟨b1, b2, b3, b4⟩ := b
  obtain ⟨c1, c2, c3, c4⟩ := c
  simp only [keyLE]
  omega

lemma keyLE_keyLT_trans {a b c : Int × Int × Int × Int} :
    keyLE a b → keyLT b c → keyLT a c := by
  obtain ⟨a1, a2, a3, a4⟩ := a
  obtain ⟨b1, b2, b3, b4⟩ := b
  obtain ⟨c1, c2, c3, c4⟩ := c
  simp only [keyLT, keyLE, ne_eq, Prod.mk.injEq]
  omega

lemma keyLE_of_not_keyLT {a b : Int × Int × Int × Int} :
    ¬ keyLT a b → keyLE b a := by
  obtain ⟨a1, a2, a3, a4⟩ := a
  obtain ⟨b1, b2, b3, b4⟩ := b
  simp only [keyLT, keyLE, ne_eq, Prod.mk.injEq]
  omega

lemma keyLT_ne {a b : Int × Int × Int × Int} : keyLT a b → a ≠ b :=
  fun h => h.2

/-- The loop's update condition is exactly strict lexicographic precedence
of the current tuple over the running best tuple. -/
lemma qualityGT_iff_keyLT (cur hi : MediaDescriptor) :
    qualityGT cur hi ↔ keyLT (qualityKey hi) (qualityKey cur) := by
  simp only [qualityGT, keyLT, keyLE, qualityKey, ne_eq, Prod.mk.injEq]
  omega

/-- Quality tuple of the list entry at index `i`. -/
def keyAt (vl : List MediaDescriptor) (i : Nat) : Int × Int × Int × Int :=
  qualityKey (vl.getD i emptyDescriptor)

/-- The property the specification claims of the selected index, stated in
the specification's words: the index is in range, its tuple is
lexicographically greatest, and ties at every key keep the earliest index. -/
def isBestIndex (vl : List MediaDescriptor) (i : Nat) : Prop :=
  i < vl.length ∧
  (∀ j, j < vl.length → keyLE (keyAt vl j) (keyAt vl i)) ∧
  (∀ j, j < vl.length → keyAt vl j = keyAt vl i → i ≤ j)

lemma length_facts_of_drop_cons {vl rest : List MediaDescriptor}
    {v : MediaDescriptor} {k : Nat} (h : vl.drop k = v :: rest) :
    k < vl.length := by
  have hlen := congrArg List.length h
  simp only [List.length_drop, List.length_cons] at hlen
  omega

lemma getD_of_drop_cons {vl rest : List MediaDescriptor}
    {v : MediaDescriptor} {k : Nat} (h : vl.drop k = v :: rest) :
    vl.getD k emptyDescriptor = v := by
  have h0 : (vl.drop k)[0]? = vl[k + 0]? := List.getElem?_drop vl k 0
  rw [h] at h0
  simp only [List.getElem?_cons_zero, Nat.add_zero] at h0
  simp [List.getD_eq_getElem?_getD, ← h0]

lemma drop_succ_of_drop_cons {vl rest : List MediaDescriptor}
    {v : MediaDescriptor} {k : Nat} (h : vl.drop k = v :: rest) :
    vl.drop (k + 1) = rest := by
  have h1 : List.drop 1 (List.drop k vl) = List.drop (k + 1) vl :=
    List.drop_drop 1 k vl
  rw [h] at h1
  simpa using h1.symm

/-- Loop invariant of `find_highest_quality_file_index`: processing the
enumerated suffix starting at position `k`, with a running best index that
is maximal and tie-earliest over the processed prefix, yields a best index
for the whole list. -/
lemma fhqLoop_spec (vl : List MediaDescriptor) : ∀ (tail : List MediaDescriptor),
    ∀ (k hi : Nat), vl.drop k = tail → hi < vl.length → hi ≤ k →
    (∀ j, j < k → keyLE (keyAt vl j) (keyAt vl hi)) →
    (∀ j, j < k → keyAt vl j = keyAt vl hi → hi ≤ j) →
    isBestIndex vl (fhqLoop vl (List.enumFrom k tail) hi) := by
  intro tail
  induction tail with
  | nil =>
    intro k hi hdrop hhi hle hmax hmin
    have hlen : vl.length ≤ k := List.drop_eq_nil_iff.mp hdrop
    refine ⟨hhi, ?_, ?_⟩
    · intro j hj
      exact hmax j (lt_of_lt_of_le hj hlen)
    · intro j hj hkey
      exact hmin j (lt_of_lt_of_le hj hlen) hkey
  | cons v rest ih =>
    intro k hi hdrop hhi hle hmax hmin
    have hk : k < vl.length := length_facts_of_drop_cons hdrop
    have hv : vl.getD k emptyDescriptor = v := getD_of_drop_cons hdrop
    have hrest : vl.drop (k + 1) = rest := drop_succ_of_drop_cons hdrop
    have hkeyk : keyAt vl k = qualityKey v := by rw [keyAt, hv]
    rw [List.enumFrom]
    by_cases hc : qualityGT v (vl.getD hi emptyDescriptor)
    · have hlt : keyLT (keyAt vl hi) (keyAt vl k) := by
        rw [hkeyk]
        exact (qualityGT_iff_keyLT v (vl.getD hi emptyDescriptor)).mp hc
      have hstep : fhqLoop vl ((k, v) :: List.enumFrom (k + 1) rest) hi =
          fhqLoop vl (List.enumFrom (k + 1) rest) k := by
        simp only [fhqLoop, if_pos hc]
      rw [hstep]
      refine ih (k + 1) k hrest hk (Nat.le_succ k) ?_ ?_
      · intro j hj
        rcases Nat.lt_succ_iff_lt_or_eq.mp hj with hjk | hjk
        · exact (keyLE_keyLT_trans (hmax j hjk) hlt).1
        · rw [hjk]
          exact keyLE_refl _
      · intro j hj hkey
        rcases Nat.lt_succ_iff_lt_or_eq.mp hj with hjk | hjk
        · exact absurd hkey (keyLT_ne (keyLE_keyLT_trans (hmax j hjk) hlt))
        · omega
    · have hnlt : ¬ keyLT (keyAt vl hi) (keyAt vl k) := by
        rw [hkeyk]
        exact fun hx => hc ((qualityGT_iff_keyLT v (vl.getD hi emptyDescriptor)).mpr hx)
      have hge : keyLE (keyAt vl k) (keyAt vl hi) := keyLE_of_not_keyLT hnlt
      have hstep : fhqLoop vl ((k, v) :: List.enumFrom (k + 1) rest) hi =
          fhqLoop vl (List.enumFrom (k + 1) rest) hi := by
        simp only [fhqLoop, if_neg hc]
      rw [hstep]
      refine ih (k + 1) hi hrest hhi (Nat.le_succ_of_le hle) ?_ ?_
      · intro j hj
        rcases Nat.lt_succ_iff_lt_or_eq.mp hj with hjk | hjk
        · exact hmax j hjk
        · rw [hjk]
          exact hge
      · intro j hj hkey
        rcases Nat.lt_succ_iff_lt_or_eq.mp hj with hjk | hjk
        · exact hmin j hjk hkey
        · omega

/-- C1: for every non-empty list of media descriptors,
`find_highest_quality_file_index` returns the index of a candidate whose
(width, height, frame-rate, bandwidth) tuple (missing fields read as 0) is
lexicographically greatest, and among all candidates with the maximal tuple
it returns the smallest index; for the empty list it returns -1. -/
theorem find_highest_quality_file_index_correct (video_list : List MediaDescriptor) :
    (video_list = [] → find_highest_quality_file_index video_list = -1) ∧
    (video_list ≠ [] → ∃ i : Nat,
      find_highest_quality_file_index video_list = Int.ofNat i ∧
      isBestIndex video_list i) := by
  constructor
  · intro h
    simp [find_highest_quality_file_index, h]
  · intro h
    have hne : video_list.isEmpty = false := by
      simpa [List.isEmpty_iff] using h
    have hlen : 0 < video_list.length := List.length_pos.mpr h
    refine ⟨fhqLoop video_list video_list.enum 0, ?_, ?_⟩
    · simp [find_highest_quality_file_index, hne]
    · have he : video_list.enum = List.enumFrom 0 video_list := rfl
      rw [he]
      refine fhqLoop_spec video_list video_list 0 0 rfl hlen (Nat.le_refl 0) ?_ ?_
      · intro j hj
        exact absurd hj (Nat.not_lt_zero j)
      · intro j hj
        exact fun _ => absurd hj (Nat.not_lt_zero j)

/-- A 1280x720 descriptor. -/
def descA : MediaDescriptor :=
  ⟨some 1280, some 720, some 30, none, some 100000, some "mp4a.40.2", some "https://cdn.example/a"⟩

/-- A 1920x1080 descriptor, frame rate given under the frame_rate key. -/
def descB : MediaDescriptor :=
  ⟨some 1920, some 1080, none, some 60, some 200000, some "mp4a.40.2", some "https://cdn.example/b"⟩

/-- A descriptor whose quality tuple ties descB at every key. -/
def descC : MediaDescriptor :=
  ⟨some 1920, some 1080, some 60, none, some 200000, some "fLaC", some "https://cdn.example/c"⟩

/-- Witness for C1 at a concrete three-element list containing a full tie. -/
theorem find_highest_quality_file_index_correct_witness :
    [descA, descB, descC] ≠ [] ∧ ∃ i : Nat,
      find_highest_quality_file_index [descA, descB, descC] = Int.ofNat i ∧
      isBestIndex [descA, descB, descC] i :=
  ⟨by decide, (find_highest_quality_file_index_correct [descA, descB, descC]).2 (by decide)⟩

/-! ## The playback-info document and `get_media_info` (blbldl.py lines 181-234) -/

/-- The value at `data.dash.flac` when present: `get_media_info` reads its
`audio` entry. -/
structure FlacField where
  audio? : Option MediaDescriptor
deriving DecidableEq, Repr

/-- The value at `data.dash`: the lossless branch under `flac` and the lossy
candidate list under `audio`. -/
structure DashField where
  flac? : Option FlacField
  audio? : Option (List MediaDescriptor)
deriving DecidableEq, Repr

/-- The value at `data`. -/
structure DataField where
  dash? : Option DashField
deriving DecidableEq, Repr

/-- The playback-info document (`window.__playinfo__`), restricted to the
entries `get_media_info` reads. -/
structure BvJson where
  data? : Option DataField
deriving DecidableEq, Repr

/-- Default for `bv_json.get("data", {})`. -/
def emptyDataField : DataField := ⟨none⟩

/-- Default for `.get("dash", {})`. -/
def emptyDashField : DashField := ⟨none, none⟩

/-- Default for `.get("flac", {})`. -/
def emptyFlacField : FlacField := ⟨none⟩

/-- `bv_json.get("data", {}).get("dash", {}).get("flac", {}).get("audio", {})`
(line 197); an absent entry at any level yields no descriptor, exactly as a
chain of empty-dict defaults does. -/
def flacAudioOf (bv : BvJson) : Option MediaDescriptor :=
  (((bv.data?.getD emptyDataField).dash?.getD emptyDashField).flac?.getD emptyFlacField).audio?

/-- `bv_json.get("data", {}).get("dash", {}).get("audio", [])`
(lines 208 and 213). -/
def audioListOf (bv : BvJson) : List MediaDescriptor :=
  ((bv.data?.getD emptyDataField).dash?.getD emptyDashField).audio?.getD []

/-- The result dictionary of `get_media_info`. -/
structure MediaInfo where
  link : String
  audio_format : String
  is_flac : Bool
deriving DecidableEq, Repr

/-- Python `str.lower` restricted to ASCII case folding. -/
def lowerStr (s : String) : String := String.mk (s.data.map Char.toLower)

/-- The lossy fallback of `get_media_info` (lines 210-234): select the best
candidate of `data.dash.audio` and truncate its codec string at the first
period. -/
def lossyMediaInfo (bv : BvJson) : MediaInfo :=
  let audio_list := audioListOf bv
  if audio_list.isEmpty then ⟨"", "", false⟩
  else
    let highest_index := find_highest_quality_file_index audio_list
    if highest_index < 0 then ⟨"", "", false⟩
    else
      let max_audio := audio_list.getD highest_index.toNat emptyDescriptor
      let codecs := max_audio.codecs?.getD ""
      let audio_format := if codecs ≠ "" then lowerStr ((codecs.splitOn ".").headD "") else ""
      ⟨max_audio.baseUrl?.getD "", audio_format, false⟩

/-- `get_media_info` (lines 181-234): return the lossless descriptor when
`data.dash.flac.audio` carries a non-empty `baseUrl` (lines 197-205),
otherwise fall back to the lossy list. -/
def get_media_info (bv : BvJson) : MediaInfo :=
  match flacAudioOf bv with
  | some flac_data =>
    if flac_data.baseUrl?.getD "" ≠ "" then
      ⟨flac_data.baseUrl?.getD "", lowerStr (flac_data.codecs?.getD ""), true⟩
    else lossyMediaInfo bv
  | none => lossyMediaInfo bv

/-- C2: whenever `data.dash.flac.audio` yields a descriptor with a non-empty
resource URL, `get_media_info` returns that URL with the lossless flag set
and the lowercased codec string, regardless of the lossy candidate list. -/
theorem get_media_info_flac (bv : BvJson) (d : MediaDescriptor) (u : String)
    (hd : flacAudioOf bv = some d) (hu : d.baseUrl? = some u) (hne : u ≠ "") :
    get_media_info bv = ⟨u, lowerStr (d.codecs?.getD ""), true⟩ := by
  unfold get_media_info
  rw [hd]
  simp [hu, hne]

/-- A playback-info document carrying both a flac descriptor and a non-empty
lossy candidate list. -/
def bvWithFlac : BvJson :=
  ⟨some ⟨some ⟨some ⟨some descC⟩, some [descA, descB]⟩⟩⟩

/-- Witness for C2: on `bvWithFlac` the flac URL wins over the lossy list. -/
theorem get_media_info_flac_witness :
    get_media_info bvWithFlac = ⟨"https://cdn.example/c", "flac", true⟩ := by
  have h := get_media_info_flac bvWithFlac descC "https://cdn.example/c" rfl rfl (by decide)
  exact h.trans (by decide)

/-! ## `extract_bvid` (blbldl.py lines 236-249) -/

/-- One character of the class `[a-zA-Z0-9]`. -/
def isBvChar (c : Char) : Bool := c.isAlpha || c.isDigit

/-- The fixed-shape pattern `BV[a-zA-Z0-9]{10}` tested at the head of a
character list: the literal prefix `BV` followed by exactly ten alphanumeric
characters; returns the matched characters. -/
def bvMatchAt : List Char → Option (List Char)
  | 'B' :: 'V' :: rest =>
    let body := rest.take 10
    if body.length = 10 && body.all isBvChar then some ('B' :: 'V' :: body)
    else none
  | _ => none

/-- `re.search` for the pattern: try every start position from the left and
return the first match. -/
def searchBv : List Char → Option (List Char)
  | [] => none
  | c :: rest =>
    match bvMatchAt (c :: rest) with
    | some m => some m
    | none => searchBv rest

/-- `extract_bvid` (lines 236-249): the first occurrence of the identifier
pattern anywhere in the input, or `none`. -/
def extract_bvid (url_or_bvid : String) : Option String :=
  (searchBv url_or_bvid.data).map fun cs => String.mk cs

lemma searchBv_eq_none {cs : List Char} (h : searchBv cs = none) :
    ∀ i, bvMatchAt (cs.drop i) = none := by
  induction cs with
  | nil =>
    intro i
    simp [List.drop_nil, bvMatchAt]
  | cons c rest ih =>
    intro i
    have hhead : bvMatchAt (c :: rest) = none := by
      by_contra hne
      obtain ⟨m, hm⟩ := Option.ne_none_iff_exists'.mp hne
      rw [searchBv, hm] at h
      exact Option.some_ne_none m h
    have htail : searchBv rest = none := by
      rw [searchBv, hhead] at h
      exact h
    match i with
    | 0 => exact hhead
    | i + 1 => exact ih htail i

lemma searchBv_eq_some {cs : List Char} {m : List Char}
    (h : searchBv cs = some m) :
    ∃ i, bvMatchAt (cs.drop i) = some m ∧ ∀ j, j < i → bvMatchAt (cs.drop j) = none := by
  induction cs with
  | nil => simp [searchBv] at h
  | cons c rest ih =>
    rw [searchBv] at h
    cases hhead : bvMatchAt (c :: rest) with
    | some m0 =>
      rw [hhead] at h
      refine ⟨0, ?_, ?_⟩
      · rw [List.drop_zero, hhead]
        exact congrArg some (Option.some.inj h)
      · intro j hj
        exact absurd hj (Nat.not_lt_zero j)
    | none =>
      rw [hhead] at h
      obtain ⟨i, hm, hmin⟩ := ih h
      refine ⟨i + 1, by simpa using hm, ?_⟩
      intro j hj
      match j with
      | 0 => exact hhead
      | j + 1 => exact (by simpa using hmin j (Nat.lt_of_succ_lt_succ hj))

lemma searchBv_of_match {cs : List Char} :
    ∀ {i : Nat} {m : List Char}, bvMatchAt (cs.drop i) = some m →
      ∃ m0, searchBv cs = some m0 := by
  induction cs with
  | nil =>
    intro i m hm
    rw [List.drop_nil] at hm
    simp [bvMatchAt] at hm
  | cons c rest ih =>
    intro i m hm
    cases hh : bvMatchAt (c :: rest) with
    | some m0 => exact ⟨m0, by rw [searchBv, hh]⟩
    | none =>
      cases i with
      | zero =>
        rw [List.drop_zero, hh] at hm
        exact Option.noConfusion hm
      | succ j =>
        have hm' : bvMatchAt (rest.drop j) = some m := by simpa using hm
        obtain ⟨m0, hs⟩ := ih hm'
        refine ⟨m0, ?_⟩
        rw [searchBv, hh]
        exact hs

/-- C5: for every input containing the pattern BV + 10 alphanumerics at some
position, `extract_bvid` returns exactly the first (leftmost) such
substring, for any surrounding text; for every input where no position
matches the pattern it returns `none`; and any returned value is the
leftmost match. -/
theorem extract_bvid_correct (s : String) :
    ((∀ i, bvMatchAt (s.data.drop i) = none) → extract_bvid s = none) ∧
    (∀ i m, bvMatchAt (s.data.drop i) = some m →
      ∃ j m0, bvMatchAt (s.data.drop j) = some m0 ∧
        (∀ k, k < j → bvMatchAt (s.data.drop k) = none) ∧
        extract_bvid s = some (String.mk m0)) ∧
    (∀ r, extract_bvid s = some r →
      ∃ i m, bvMatchAt (s.data.drop i) = some m ∧ r = String.mk m ∧
        ∀ j, j < i → bvMatchAt (s.data.drop j) = none) := by
  refine ⟨?_, ?_, ?_⟩
  · intro hnone
    cases hs : searchBv s.data with
    | none => simp [extract_bvid, hs]
    | some m =>
      obtain ⟨i, hm, _⟩ := searchBv_eq_some hs
      rw [hnone i] at hm
      exact absurd hm (Option.noConfusion)
  · intro i m hm
    obtain ⟨m0, hs⟩ := searchBv_of_match hm
    obtain ⟨j, hj, hmin⟩ := searchBv_eq_some hs
    refine ⟨j, m0, hj, hmin, ?_⟩
    rw [extract_bvid, hs]
    rfl
  · intro r hr
    cases hs : searchBv s.data with
    | none => simp [extract_bvid, hs] at hr
    | some m =>
      obtain ⟨i, hm, hmin⟩ := searchBv_eq_some hs
      refine ⟨i, m, hm, ?_, hmin⟩
      rw [extract_bvid, hs] at hr
      exact (Option.some.inj hr).symm

/-- Witness for C5: a shortened-link URL with query suffix contains the
pattern at position 15, and the extractor returns that first match. -/
theorem extract_bvid_correct_witness :
    ∃ j m0, bvMatchAt (("https://b23.tv/BV1GJ411x7h7?from=share").data.drop j) = some m0 ∧
      (∀ k, k < j → bvMatchAt (("https://b23.tv/BV1GJ411x7h7?from=share").data.drop k) = none) ∧
      extract_bvid "https://b23.tv/BV1GJ411x7h7?from=share" = some (String.mk m0) :=
  (extract_bvid_correct "https://b23.tv/BV1GJ411x7h7?from=share").2.1 15
    ("BV1GJ411x7h7".data) (by decide)

/-! ## `parse_bv_info` (blbldl.py lines 76-136)

The HTML and regular-expression library calls cannot be embedded directly,
so a script block is modelled by the outcomes of the calls the loop body
makes on it: `script.string`, the marker containment tests, and the regex
search results. `json.loads` is an explicit oracle argument
`jl : String → Option Nat` returning the parsed document as an abstract
identifier, `none` modelling a raised `json.JSONDecodeError`. Parsed
documents are abstract identifiers (`Nat`); every document parsed here has
more than 8000 characters of JSON text, hence is a non-empty, truthy dict. -/

/-- Exception classes of the embedded code. -/
inductive PyErr where
  | htmlError
  | jsonDecodeError
  | attributeError
  | nameError (name : String)
deriving DecidableEq, Repr

/-- One `<script>` element as the loop body of `parse_bv_info` observes it. -/
structure ScriptBlock where
  /-- `script.string` (line 102), `none` when BeautifulSoup yields None. -/
  text? : Option String
  /-- whether the text contains the `window.__playinfo__` marker (line 107). -/
  hasPlayinfo : Bool
  /-- `group(1)` of the playinfo regex search when it succeeds (lines 108-113). -/
  playinfoMatch? : Option String
  /-- whether the text contains the `window.__INITIAL_STATE__` marker (line 119). -/
  hasInitialState : Bool
  /-- `group(1)` of the initial-state regex search when it succeeds (lines 120-125). -/
  stateMatch? : Option String
deriving DecidableEq, Repr

/-- The raw page, as `parse_bv_info` consumes it: whether the title-extraction
prelude (lines 94-98, `etree.HTML` plus xpath) raises, and the script blocks
in document order. -/
structure PageInput where
  htmlRaises : Bool
  scripts : List ScriptBlock
deriving DecidableEq, Repr

/-- The playinfo branch of the loop body (lines 107-116): on a qualifying
match (longer than 8000 characters) parse it, assigning `data`; a parse
failure raises. -/
def scanPlayinfo (jl : String → Option Nat) (script : ScriptBlock)
    (data : Option Nat) : Except PyErr (Option Nat) :=
  if script.hasPlayinfo then
    match script.playinfoMatch? with
    | some g =>
      if g.length > 8000 then
        match jl g with
        | some doc => .ok (some doc)
        | none => .error .jsonDecodeError
      else .ok data
    | none => .ok data
  else .ok data

/-- The initial-state branch of the loop body (lines 119-128). -/
def scanInitialState (jl : String → Option Nat) (script : ScriptBlock)
    (data1 : Option Nat) : Except PyErr (Option Nat) :=
  if script.hasInitialState then
    match script.stateMatch? with
    | some g =>
      if g.length > 8000 then
        match jl g with
        | some doc => .ok (some doc)
        | none => .error .jsonDecodeError
      else .ok data1
    | none => .ok data1
  else .ok data1

/-- The scan loop (lines 101-132) run on the raising semantics: an error
carries the exception together with the values of `data` and `data1` at the
moment of the raise, since the handler returns exactly those locals. -/
def parse_scripts (jl : String → Option Nat) :
    List ScriptBlock → Option Nat → Option Nat →
    Except (PyErr × Option Nat × Option Nat) (Option Nat × Option Nat)
  | [], data, data1 => .ok (data, data1)
  | script :: rest, data, data1 =>
    match script.text? with
    | none => parse_scripts jl rest data data1
    | some _ =>
      match scanPlayinfo jl script data with
      | .error e => .error (e, data, data1)
      | .ok data' =>
        match scanInitialState jl script data1 with
        | .error e => .error (e, data', data1)
        | .ok data1' =>
          match data', data1' with
          | some d, some d1 => .ok (some d, some d1)
          | some d, none => parse_scripts jl rest (some d) none
          | none, d1 => parse_scripts jl rest none d1

/-- The whole body of the `try` block of `parse_bv_info` (lines 93-132). -/
def parse_bv_core (jl : String → Option Nat) (p : PageInput) :
    Except (PyErr × Option Nat × Option Nat) (Option Nat × Option Nat) :=
  if p.htmlRaises then .error (.htmlError, none, none)
  else parse_scripts jl p.scripts none none

/-- `parse_bv_info` (lines 76-136): the body runs under `except Exception`,
whose handler logs and falls through to `return data, data1`. -/
def parse_bv_info (jl : String → Option Nat) (p : PageInput) :
    Option Nat × Option Nat :=
  match parse_bv_core jl p with
  | .ok r => r
  | .error (_, d, d1) => (d, d1)

/-- C10: `parse_bv_info` is total: it always returns a pair of optional
documents, and whenever its body raises any exception the handler catches it
and the function returns the `data`, `data1` locals live at the raise; no
exception reaches the caller. -/
theorem parse_bv_info_total (jl : String → Option Nat) (p : PageInput) :
    (∃ d d1, parse_bv_info jl p = (d, d1)) ∧
    (∀ e d d1, parse_bv_core jl p = .error (e, d, d1) → parse_bv_info jl p = (d, d1)) ∧
    (∀ d d1, parse_bv_core jl p = .ok (d, d1) → parse_bv_info jl p = (d, d1)) := by
  refine ⟨⟨(parse_bv_info jl p).1, (parse_bv_info jl p).2, rfl⟩, ?_, ?_⟩
  · intro e d d1 h
    rw [parse_bv_info, h]
  · intro d d1 h
    rw [parse_bv_info, h]


/-- Filler for the large embedded JSON texts. -/
def manyA : List Char := List.replicate 8100 'a'

/-- A well-formed JSON object text longer than 8000 characters. -/
def gGoodJson : String := "\x7b\"k\":\"" ++ String.mk manyA ++ "\"\x7d"

/-- A brace-delimited text of the same bulk whose key is not quoted: it has
the shape the extraction regex matches, but `json.loads` rejects it. -/
def gBadJson : String := "\x7bk:\"" ++ String.mk manyA ++ "\"\x7d"

/-- `json.loads` on the two texts above, abstracted by the observation that
separates them: the object whose first key opens with a double quote parses
(to abstract document 7), the unquoted-key text raises. -/
def jlModel : String → Option Nat :=
  fun s => if s.data.getD 1 ' ' = '"' then some 7 else none

/-- A script block whose playinfo assignment qualifies (above the 8000
character threshold) but holds malformed JSON. -/
def scriptBad : ScriptBlock := ⟨some "s1", true, some gBadJson, false, none⟩

/-- A script block with a qualifying, well-formed initial-state assignment. -/
def scriptGood : ScriptBlock := ⟨some "s2", false, none, true, some gGoodJson⟩

lemma gGoodJson_length_gt : gGoodJson.length > 8000 := by
  rw [gGoodJson, String.length_append, String.length_append]
  simp only [String.mk_length, manyA, List.length_replicate]
  decide

lemma gBadJson_length_gt : gBadJson.length > 8000 := by
  rw [gBadJson, String.length_append, String.length_append]
  simp only [String.mk_length, manyA, List.length_replicate]
  decide

lemma jl_gGoodJson : jlModel gGoodJson = some 7 := rfl

lemma jl_gBadJson : jlModel gBadJson = none := rfl

lemma scanPlayinfo_malformed {jl : String → Option Nat} {s : ScriptBlock}
    {g : String} (data : Option Nat) (hm : s.hasPlayinfo = true)
    (hg : s.playinfoMatch? = some g) (hlen : g.length > 8000)
    (hjl : jl g = none) : scanPlayinfo jl s data = .error .jsonDecodeError := by
  simp [scanPlayinfo, hm, hg, hlen, hjl]

lemma scanPlayinfo_not_marked {jl : String → Option Nat} {s : ScriptBlock}
    (data : Option Nat) (hm : s.hasPlayinfo = false) :
    scanPlayinfo jl s data = .ok data := by
  simp [scanPlayinfo, hm]

lemma scanInitialState_parses {jl : String → Option Nat} {s : ScriptBlock}
    {g : String} {d : Nat} (data1 : Option Nat) (hm : s.hasInitialState = true)
    (hg : s.stateMatch? = some g) (hlen : g.length > 8000)
    (hjl : jl g = some d) : scanInitialState jl s data1 = .ok (some d) := by
  simp [scanInitialState, hm, hg, hlen, hjl]

lemma parse_scripts_malformed (jl : String → Option Nat) (s : ScriptBlock)
    (rest : List ScriptBlock) (data data1 : Option Nat) (g : String)
    (ht : s.text?.isSome = true) (hm : s.hasPlayinfo = true)
    (hg : s.playinfoMatch? = some g) (hlen : g.length > 8000)
    (hjl : jl g = none) :
    parse_scripts jl (s :: rest) data data1 = .error (.jsonDecodeError, data, data1) := by
  obtain ⟨t, ht'⟩ := Option.isSome_iff_exists.mp ht
  rw [parse_scripts, ht', scanPlayinfo_malformed data hm hg hlen hjl]

lemma parse_bv_core_noraise (jl : String → Option Nat) (scripts : List ScriptBlock) :
    parse_bv_core jl ⟨false, scripts⟩ = parse_scripts jl scripts none none := by
  simp [parse_bv_core]

/-- C4 (amended): a qualifying playinfo assignment with malformed JSON makes
the scan raise at that script block: the remaining blocks are never scanned
(the result does not depend on `rest`), and the page-level handler returns
the documents accumulated before that block, so a document that would have
been found in a later block is lost. -/
theorem parse_malformed_aborts_scan (jl : String → Option Nat) (s : ScriptBlock)
    (rest : List ScriptBlock) (data data1 : Option Nat) (g : String)
    (ht : s.text?.isSome = true) (hm : s.hasPlayinfo = true)
    (hg : s.playinfoMatch? = some g) (hlen : g.length > 8000)
    (hjl : jl g = none) :
    parse_scripts jl (s :: rest) data data1 = .error (.jsonDecodeError, data, data1) ∧
    parse_bv_info jl ⟨false, s :: rest⟩ = (none, none) := by
  refine ⟨parse_scripts_malformed jl s rest data data1 g ht hm hg hlen hjl, ?_⟩
  rw [parse_bv_info, parse_bv_core_noraise,
    parse_scripts_malformed jl s rest none none g ht hm hg hlen hjl]

/-- Witness for the amended C4 at the concrete malformed page. -/
theorem parse_malformed_aborts_scan_witness :
    parse_scripts jlModel [scriptBad, scriptGood] none none =
      .error (.jsonDecodeError, none, none) ∧
    parse_bv_info jlModel ⟨false, [scriptBad, scriptGood]⟩ = (none, none) :=
  parse_malformed_aborts_scan jlModel scriptBad [scriptGood] none none gBadJson
    rfl rfl rfl gBadJson_length_gt jl_gBadJson

lemma parse_scripts_good_only :
    parse_scripts jlModel [scriptGood] none none = .ok (none, some 7) := by
  have ht : scriptGood.text? = some "s2" := rfl
  have h1 : scanPlayinfo jlModel scriptGood none = .ok none :=
    scanPlayinfo_not_marked none rfl
  have h2 : scanInitialState jlModel scriptGood none = .ok (some 7) :=
    scanInitialState_parses none rfl rfl gGoodJson_length_gt jl_gGoodJson
  rw [parse_scripts, ht, h1, h2]
  rfl

/-- Counterexample to C4 as stated: with the malformed playinfo block first,
the scan does not continue to the next block — the initial-state document
that block carries is lost, although scanning the same good block alone
finds it. -/
theorem parse_scan_does_not_continue_cex :
    parse_bv_info jlModel ⟨false, [scriptBad, scriptGood]⟩ = (none, none) ∧
    parse_bv_info jlModel ⟨false, [scriptGood]⟩ = (none, some 7) := by
  constructor
  · rw [parse_bv_info, parse_bv_core_noraise,
      parse_scripts_malformed jlModel scriptBad [scriptGood] none none gBadJson
        rfl rfl rfl gBadJson_length_gt jl_gBadJson]
  · rw [parse_bv_info, parse_bv_core_noraise, parse_scripts_good_only]

/-- Witness for C10 at a page whose title-extraction prelude raises. -/
theorem parse_bv_info_total_witness :
    parse_bv_core jlModel ⟨true, []⟩ = .error (.htmlError, none, none) ∧
    parse_bv_info jlModel ⟨true, []⟩ = (none, none) :=
  ⟨rfl, (parse_bv_info_total jlModel ⟨true, []⟩).2.1 .htmlError none none rfl⟩

/-! ## `fetch_video_info` (blbldl.py lines 251-340)

The network and the page parse are abstracted into one observation per
attempt: either the GET raised a `requests` exception, or it produced a page
whose `parse_bv_info` result is the given pair of documents. The metadata
document is typed by the fields `fetch_video_info` reads. -/

/-- `viewInfo` with the truthiness of its `is_upower_exclusive` entry. -/
structure ViewInfo where
  is_upower_exclusive : Bool
deriving DecidableEq, Repr

/-- The `video` entry of the metadata document. -/
structure VideoField where
  viewInfo? : Option ViewInfo
deriving DecidableEq, Repr

/-- The `owner` entry of `videoData`. -/
structure OwnerField where
  name? : Option String
deriving DecidableEq, Repr

/-- The `videoData` entry of the metadata document. -/
structure VideoData where
  title? : Option String
  owner? : Option OwnerField
  ctime? : Option Int
  duration? : Option Int
deriving DecidableEq, Repr

/-- The metadata document (`window.__INITIAL_STATE__`), restricted to the
entries `fetch_video_info` reads. -/
structure MetaDoc where
  video? : Option VideoField
  videoData? : Option VideoData
deriving DecidableEq, Repr

/-- The guard of lines 311-314: a truthy-chained read of
`media_info_meta.get('video').get('viewInfo').get('is_upower_exclusive')`,
false as soon as a link of the chain is absent. -/
def upowerExclusive (mm : Option MetaDoc) : Bool :=
  match mm with
  | none => false
  | some m =>
    match m.video? with
    | none => false
    | some v =>
      match v.viewInfo? with
      | none => false
      | some vi => vi.is_upower_exclusive

/-- The `audio_json` record built on lines 323-328. -/
structure AudioJson where
  title : Option String
  owner : Option String
  datetime : Option Int
  bvid : Option String
  duration : Option Int
deriving DecidableEq, Repr

/-- Every name bound in the scope of `fetch_video_info`: its parameters and
assigned locals (lines 251-337) followed by the module-level bindings of
blbldl.py (imports, module constants, function definitions, and the names
the __main__ block assigns before the fetch runs). -/
def fetch_video_info_boundNames : List String :=
  ["link", "max_attempts", "delay", "media_info_link", "media_info_meta",
   "attempt", "s", "headers", "ua", "r", "audio_info", "audio_link",
   "audio_json", "e",
   "argparse", "json", "logging", "os", "re", "requests", "sys", "time",
   "BeautifulSoup", "UserAgent", "etree", "Path", "tqdm", "Dict", "List",
   "Optional", "Tuple", "Any", "Union", "unquote", "urljoin", "parse",
   "logger", "handler", "formatter", "get_sec_ch_ua_mobile", "get_sec_ch_ua",
   "get_platform", "parse_bv_info", "find_highest_quality_file_index",
   "get_media_info", "extract_bvid", "fetch_video_info", "download_audio",
   "fetch_audio_link_from_line", "download_audio_from_line",
   "parser", "args", "output_path", "result"]

/-- Evaluation of the dictionary display of lines 323-328 in order: the
`videoData` lookups raise `AttributeError` when a `.get` chain reaches None;
the fourth entry reads the name `bvid`, which resolves against the bound
names of the scope and raises `NameError` when absent. The success value
uses `none` for the `bvid` entry because no binding exists to supply one
(the branch is shown unreachable below). -/
def buildAudioJson (mm : Option MetaDoc) : Except PyErr AudioJson :=
  match mm with
  | none => .error .attributeError
  | some m =>
    match m.videoData? with
    | none => .error .attributeError
    | some vd =>
      match vd.owner? with
      | none => .error .attributeError
      | some ow =>
        if fetch_video_info_boundNames.contains "bvid" then
          .ok ⟨vd.title?, ow.name?, vd.ctime?, none, vd.duration?⟩
        else .error (.nameError "bvid")

/-- What one attempt of the retry loop observes. -/
inductive AttemptResult where
  | transportError
  | page (playinfo : Option BvJson) (meta : Option MetaDoc)
deriving DecidableEq, Repr

/-- The attempt loop of `fetch_video_info` (lines 268-337), fuel counting the
remaining attempts: a transport error sleeps and retries; a page is checked
for the exclusive flag, then, when the playback document is present, the
success path selects the stream and builds `audio_json`; an absent playback
document sleeps and retries; loop exhaustion returns the failed triple
(line 340). -/
def fetchGo (env : Nat → AttemptResult) :
    Nat → Nat → Except PyErr (String × String × Option AudioJson)
  | 0, _ => .ok ("failed", "", none)
  | fuel + 1, attempt =>
    match env attempt with
    | .transportError => fetchGo env fuel (attempt + 1)
    | .page ml mm =>
      match upowerExclusive mm with
      | true => .ok ("excluded", "", none)
      | false =>
        match ml with
        | some bv =>
          match buildAudioJson mm with
          | .error e => .error e
          | .ok aj => .ok ("ok", (get_media_info bv).link, some aj)
        | none => fetchGo env fuel (attempt + 1)

/-- `fetch_video_info` (lines 251-340). -/
def fetch_video_info (env : Nat → AttemptResult) (max_attempts : Nat) :
    Except PyErr (String × String × Option AudioJson) :=
  fetchGo env max_attempts 0

lemma boundNames_no_bvid : fetch_video_info_boundNames.contains "bvid" = false := by
  decide

lemma buildAudioJson_never_ok (mm : Option MetaDoc) :
    ∃ e, buildAudioJson mm = .error e := by
  cases mm with
  | none => exact ⟨.attributeError, rfl⟩
  | some m =>
    obtain ⟨v, vdd⟩ := m
    cases vdd with
    | none => exact ⟨.attributeError, rfl⟩
    | some vd =>
      obtain ⟨t, owf, c, d⟩ := vd
      cases owf with
      | none => exact ⟨.attributeError, rfl⟩
      | some ow => exact ⟨.nameError "bvid", rfl⟩

lemma buildAudioJson_nameError {m : MetaDoc} {vd : VideoData} {ow : OwnerField}
    (hvd : m.videoData? = some vd) (how : vd.owner? = some ow) :
    buildAudioJson (some m) = .error (.nameError "bvid") := by
  obtain ⟨v, vdd⟩ := m
  change vdd = some vd at hvd
  subst hvd
  obtain ⟨t, owf, c, d⟩ := vd
  change owf = some ow at how
  subst how
  rfl

lemma fetchGo_succ (env : Nat → AttemptResult) (fuel attempt : Nat) :
    fetchGo env (fuel + 1) attempt =
      match env attempt with
      | .transportError => fetchGo env fuel (attempt + 1)
      | .page ml mm =>
        match upowerExclusive mm with
        | true => .ok ("excluded", "", none)
        | false =>
          match ml with
          | some bv =>
            match buildAudioJson mm with
            | .error e => .error e
            | .ok aj => .ok ("ok", (get_media_info bv).link, some aj)
          | none => fetchGo env fuel (attempt + 1) := rfl

lemma fetchGo_cases (env : Nat → AttemptResult) :
    ∀ (fuel attempt : Nat),
    (∃ e, fetchGo env fuel attempt = .error e) ∨
    fetchGo env fuel attempt = .ok ("excluded", "", none) ∨
    fetchGo env fuel attempt = .ok ("failed", "", none) := by
  intro fuel
  induction fuel with
  | zero =>
    intro attempt
    right; right; rfl
  | succ n ih =>
    intro attempt
    cases h : env attempt with
    | transportError =>
      have hstep : fetchGo env (n + 1) attempt = fetchGo env n (attempt + 1) := by
        rw [fetchGo_succ, h]
      rw [hstep]
      exact ih (attempt + 1)
    | page ml mm =>
      cases hex : upowerExclusive mm with
      | true =>
        have hstep : fetchGo env (n + 1) attempt = .ok ("excluded", "", none) := by
          rw [fetchGo_succ, h]
          dsimp only
          rw [hex]
        rw [hstep]
        right; left; rfl
      | false =>
        cases ml with
        | some bv =>
          obtain ⟨e, he⟩ := buildAudioJson_never_ok mm
          have hstep : fetchGo env (n + 1) attempt = .error e := by
            rw [fetchGo_succ, h]
            dsimp only
            rw [hex, he]
          rw [hstep]
          exact Or.inl ⟨e, rfl⟩
        | none =>
          have hstep : fetchGo env (n + 1) attempt = fetchGo env n (attempt + 1) := by
            rw [fetchGo_succ, h]
            dsimp only
            rw [hex]
          rw [hstep]
          exact ih (attempt + 1)

/-- C3: the outcomes `fetch_video_info` can produce. Every run either
propagates an exception, or returns the excluded triple, or returns the
failed triple; in particular no input produces a `duration_exceeded`
outcome — and none produces the ok triple — because the code never compares
the metadata duration against any maximum. -/
theorem fetch_video_info_outcomes (env : Nat → AttemptResult) (n : Nat) :
    (∃ e, fetch_video_info env n = .error e) ∨
    fetch_video_info env n = .ok ("excluded", "", none) ∨
    fetch_video_info env n = .ok ("failed", "", none) := by
  unfold fetch_video_info
  exact fetchGo_cases env n 0

/-- The hypothesis under which the dictionary display of lines 323-328
reaches its fourth entry: the metadata document is present and the
`videoData` and `owner` lookups both yield values. -/
def metaRecordReachesBvid (mm : Option MetaDoc) : Prop :=
  ∃ m vd ow, mm = some m ∧ m.videoData? = some vd ∧ vd.owner? = some ow

/-- C9 (amended): building the `audio_json` record always raises — the
`NameError` on the unbound name `bvid` whenever the metadata lookups before
it succeed, an `AttributeError` from a None lookup otherwise — and
consequently `fetch_video_info` never returns the tuple
`("ok", link, metadata)`. -/
theorem fetch_success_path_raises (mm : Option MetaDoc) (env : Nat → AttemptResult)
    (n : Nat) (l : String) (aj : Option AudioJson) :
    (∃ e, buildAudioJson mm = .error e) ∧
    (metaRecordReachesBvid mm → buildAudioJson mm = .error (.nameError "bvid")) ∧
    fetch_video_info env n ≠ .ok ("ok", l, aj) := by
  refine ⟨buildAudioJson_never_ok mm, ?_, ?_⟩
  · rintro ⟨m, vd, ow, rfl, hvd, how⟩
    exact buildAudioJson_nameError hvd how
  · intro hok
    have hfv : fetch_video_info env n = fetchGo env n 0 := rfl
    rw [hfv] at hok
    rcases fetchGo_cases env n 0 with ⟨e, he⟩ | he | he <;>
      · have hcontra := he.symm.trans hok
        simp at hcontra

/-- A metadata document with the exclusive flag unset and complete
`videoData` entries. -/
def mWF : MetaDoc :=
  ⟨some ⟨some ⟨false⟩⟩, some ⟨some "Title", some ⟨some "Owner"⟩, some 1700000000, some 212⟩⟩

/-- A playback-info document with no flac branch and an empty lossy list:
stream selection on it yields an empty resource URL. -/
def bvNoAudio : BvJson := ⟨some ⟨some ⟨none, some []⟩⟩⟩

/-- Witness for the amended C9 at a well-formed metadata document. -/
theorem fetch_success_path_raises_witness :
    (∃ e, buildAudioJson (some mWF) = .error e) ∧
    buildAudioJson (some mWF) = .error (.nameError "bvid") ∧
    fetch_video_info (fun _ => .page (some bvNoAudio) (some mWF)) 1 ≠
      .ok ("ok", "", none) := by
  have h := fetch_success_path_raises (some mWF)
    (fun _ => .page (some bvNoAudio) (some mWF)) 1 "" none
  exact ⟨h.1, h.2.1 ⟨mWF, _, _, rfl, rfl, rfl⟩, h.2.2⟩

/-- Counterexample to C9 as stated: when the playback document is present
but the metadata document is absent, the success path raises an
`AttributeError` (from `None.get`), not the claimed `NameError`. -/
theorem fetch_success_path_attribute_error_cex :
    fetch_video_info (fun _ => .page (some bvNoAudio) none) 1 = .error .attributeError ∧
    PyErr.attributeError ≠ PyErr.nameError "bvid" :=
  ⟨rfl, by decide⟩

/-- C6 (amended): when an attempt yields a playback-info document and the
exclusive flag is unset, the orchestrator performs no emptiness check on the
selected resource URL and never sleeps or retries: it propagates the
exception of the metadata-record construction immediately. -/
theorem fetch_playinfo_no_url_check (env : Nat → AttemptResult) (n : Nat)
    (bv : BvJson) (mm : Option MetaDoc) (hn : 0 < n)
    (h0 : env 0 = .page (some bv) mm) (hflag : upowerExclusive mm = false) :
    ∃ e, buildAudioJson mm = .error e ∧ fetch_video_info env n = .error e := by
  obtain ⟨e, he⟩ := buildAudioJson_never_ok mm
  refine ⟨e, he, ?_⟩
  obtain ⟨m, rfl⟩ : ∃ m, n = m + 1 := ⟨n - 1, by omega⟩
  have hfv : fetch_video_info env (m + 1) = fetchGo env (m + 1) 0 := rfl
  rw [hfv, fetchGo_succ, h0]
  dsimp only
  rw [hflag, he]

/-- Witness for the amended C6: first attempt yields a playback document
whose stream selection gives an empty URL; the fetch raises at once. -/
theorem fetch_playinfo_no_url_check_witness :
    ∃ e, buildAudioJson (some mWF) = .error e ∧
      fetch_video_info (fun _ => .page (some bvNoAudio) (some mWF)) 2 = .error e :=
  fetch_playinfo_no_url_check (fun _ => .page (some bvNoAudio) (some mWF)) 2
    bvNoAudio (some mWF) (by decide) rfl rfl

/-- Counterexample to C6 as stated: the selected resource URL of the page is
empty, yet the orchestrator does not sleep and retry towards the failed
outcome — the first attempt already terminates the run with an exception. -/
theorem fetch_empty_url_no_retry_cex :
    (get_media_info bvNoAudio).link = "" ∧
    fetch_video_info (fun _ => .page (some bvNoAudio) (some mWF)) 2 =
      .error (.nameError "bvid") ∧
    Except.error (PyErr.nameError "bvid") ≠
      (Except.ok ("failed", "", none) : Except PyErr (String × String × Option AudioJson)) := by
  refine ⟨rfl, rfl, ?_⟩
  intro hcontra
  simp at hcontra

/-! ## `download_audio` (blbldl.py lines 342-381) and its caller (lines 398-431)

One attempt of the download loop is abstracted by its observed outcome: the
body ran to its final log line with no exception, raised a
`requests.exceptions.RequestException`, or raised any other exception. (In
the source the name `s` is unbound in this scope, so at run time every
attempt realises the third outcome; the model keeps all three so that the
loop structure is exercised on successful bodies too.) -/

/-- The outcome of one attempt body of `download_audio`. -/
inductive DlAttempt where
  | success
  | requestError
  | otherError
deriving DecidableEq, Repr

/-- The attempt loop of `download_audio` (lines 343-381), fuel counting the
remaining attempts, returning the final status string together with the list
of sleep durations performed, in order. A successful body neither breaks nor
returns, so the loop always continues; both handlers sleep the constant
`delay` and continue; the for-else branch returns the failed status. -/
def download_audio_go (env : Nat → DlAttempt) (delay : Nat) :
    Nat → Nat → String × List Nat
  | 0, _ => ("failed", [])
  | fuel + 1, attempt =>
    match env attempt with
    | .success => download_audio_go env delay fuel (attempt + 1)
    | .requestError =>
      let r := download_audio_go env delay fuel (attempt + 1)
      (r.1, delay :: r.2)
    | .otherError =>
      let r := download_audio_go env delay fuel (attempt + 1)
      (r.1, delay :: r.2)

/-- `download_audio` (lines 342-381): status string and sleep trace. -/
def download_audio (env : Nat → DlAttempt) (max_attempts delay : Nat) :
    String × List Nat :=
  download_audio_go env delay max_attempts 0

/-- Lines 423-426 of `download_audio_from_line`: the sidecar metadata file is
written exactly when `download_audio` returned the ok status. -/
def writes_sidecar (download_status : String) : Bool := download_status == "ok"

lemma download_audio_go_status (env : Nat → DlAttempt) (delay : Nat) :
    ∀ (fuel attempt : Nat), (download_audio_go env delay fuel attempt).1 = "failed" := by
  intro fuel
  induction fuel with
  | zero => intro attempt; rfl
  | succ n ih =>
    intro attempt
    cases h : env attempt with
    | success =>
      have hstep : download_audio_go env delay (n + 1) attempt =
          download_audio_go env delay n (attempt + 1) := by
        rw [download_audio_go, h]
      rw [hstep]
      exact ih (attempt + 1)
    | requestError =>
      have hstep : (download_audio_go env delay (n + 1) attempt).1 =
          (download_audio_go env delay n (attempt + 1)).1 := by
        rw [download_audio_go, h]
      rw [hstep]
      exact ih (attempt + 1)
    | otherError =>
      have hstep : (download_audio_go env delay (n + 1) attempt).1 =
          (download_audio_go env delay n (attempt + 1)).1 := by
        rw [download_audio_go, h]
      rw [hstep]
      exact ih (attempt + 1)

lemma download_audio_go_sleeps (env : Nat → DlAttempt) (delay : Nat) :
    ∀ (fuel attempt : Nat), (download_audio_go env delay fuel attempt).2 =
      List.replicate (download_audio_go env delay fuel attempt).2.length delay := by
  intro fuel
  induction fuel with
  | zero => intro attempt; rfl
  | succ n ih =>
    intro attempt
    cases h : env attempt with
    | success =>
      have hstep : download_audio_go env delay (n + 1) attempt =
          download_audio_go env delay n (attempt + 1) := by
        rw [download_audio_go, h]
      rw [hstep]
      exact ih (attempt + 1)
    | requestError =>
      have hstep : (download_audio_go env delay (n + 1) attempt).2 =
          delay :: (download_audio_go env delay n (attempt + 1)).2 := by
        rw [download_audio_go, h]
      rw [hstep, List.length_cons, List.replicate_succ]
      rw [← ih (attempt + 1)]
    | otherError =>
      have hstep : (download_audio_go env delay (n + 1) attempt).2 =
          delay :: (download_audio_go env delay n (attempt + 1)).2 := by
        rw [download_audio_go, h]
      rw [hstep, List.length_cons, List.replicate_succ]
      rw [← ih (attempt + 1)]

/-- C8: `download_audio` returns the failed status on every invocation, even
when attempts stream the body without error: the loop never exits early, so
the for-else branch runs after `max_attempts` iterations and the ok status
is never produced. -/
theorem download_audio_always_failed (env : Nat → DlAttempt)
    (max_attempts delay : Nat) :
    (download_audio env max_attempts delay).1 = "failed" := by
  unfold download_audio
  exact download_audio_go_status env delay max_attempts 0

/-- C7 (amended): every sleep of `download_audio` lasts the constant
configured delay (the trace is a replication of `delay`), exhausting the
attempts yields the failed status, and on that status the caller writes no
sidecar metadata file. -/
theorem download_audio_failed_constant_delay (env : Nat → DlAttempt)
    (max_attempts delay : Nat) :
    (download_audio env max_attempts delay).1 = "failed" ∧
    (download_audio env max_attempts delay).2 =
      List.replicate (download_audio env max_attempts delay).2.length delay ∧
    writes_sidecar (download_audio env max_attempts delay).1 = false := by
  refine ⟨download_audio_go_status env delay max_attempts 0,
    download_audio_go_sleeps env delay max_attempts 0, ?_⟩
  rw [show (download_audio env max_attempts delay).1 = "failed" from
    download_audio_go_status env delay max_attempts 0]
  rfl

/-- The delay-growth property C7 claims of the sleep trace, stated from the
specification's words: successive sleeps grow with the attempt index. -/
def delaysGrowWithAttempt (sleeps : List Nat) : Prop :=
  List.Chain' (fun a b => a < b) sleeps

/-- Counterexample to C7 as stated: three failing attempts with delay 5
sleep [5, 5, 5] — the delay does not grow with the attempt index. -/
theorem download_delay_constant_cex :
    (download_audio (fun _ => DlAttempt.requestError) 3 5).2 = [5, 5, 5] ∧
    ¬ delaysGrowWithAttempt (download_audio (fun _ => DlAttempt.requestError) 3 5).2 := by
  constructor
  · rfl
  · intro h
    rw [show (download_audio (fun _ => DlAttempt.requestError) 3 5).2 = [5, 5, 5] from rfl] at h
    simp [delaysGrowWithAttempt, List.chain'_cons] at h
